import Mathlib

/-!
Verification of the MENACE tic-tac-toe learning engine (`menace-rs`).

The definitions below are a shallow embedding of the Rust sources:
`src/game/tictactoe.rs`, `src/adjust.rs`, `src/menace.rs` and the driving
loop in `src/main.rs`.  Machine integers (`u32`, `usize`) are embedded as
`Nat` with explicit `% 2 ^ 32` / range checks where the Rust code casts or
deserializes; fallible code (Rust `Result`, `unwrap`/`panic!` sites) is
embedded with `Except` / `Option`.
-/

set_option autoImplicit false

deriving instance DecidableEq for Except

namespace MenaceRs

/-- Modelled from the spec: the file `src/game/symbol.rs` is not in the
source tree (only its users are).  `Symbol` is the cell marker consumed by
`tictactoe.rs` through `==`/`!=` (derived equality) and `as_char`; the
spec calls the three markers X, O and EMPTY.  The concrete characters
chosen for `as_char` are irrelevant to every property proved below (the
flattened string is an opaque canonical key); they only need to exist. -/
inductive Symbol where
  | EMPTY
  | X
  | O
deriving DecidableEq, Repr

/-- Modelled from the spec: the character rendering of a `Symbol`, used by
`TicTacToe::flatten` to build the canonical state key. -/
def Symbol.as_char : Symbol → Char
  | .EMPTY => '-'
  | .X => 'X'
  | .O => 'O'

/-- `TicTacToe` from `src/game/tictactoe.rs`: the board is a 3×3 array of
symbols (`board: [[Symbol; 3]; 3]`), embedded as a function from in-range
indices. -/
structure TicTacToe where
  board : Fin 3 → Fin 3 → Symbol

/-- `TicTacToe::new`: an empty board. -/
def TicTacToe.new : TicTacToe :=
  ⟨fun _ _ => Symbol.EMPTY⟩

/-- `TicTacToe::legal_move`: `self.board[cell.0][cell.1] == Symbol::EMPTY`.
Rust indexes with `usize` and panics on an out-of-range index; the panic is
embedded as `none`. -/
def TicTacToe.legal_move (g : TicTacToe) (cell : Nat × Nat) : Option Bool :=
  if h : cell.1 < 3 ∧ cell.2 < 3 then
    some (g.board ⟨cell.1, h.1⟩ ⟨cell.2, h.2⟩ == Symbol.EMPTY)
  else
    none

/-- `TicTacToe::check_win`: each row is checked, then each column, then —
only when the centre cell is occupied — the two diagonals.  The early
`return true`s become boolean disjunction. -/
def TicTacToe.check_win (g : TicTacToe) : Bool :=
  ((List.finRange 3).any fun row =>
    g.board row 0 == g.board row 1 && g.board row 1 == g.board row 2 &&
      g.board row 0 != Symbol.EMPTY) ||
  ((List.finRange 3).any fun col =>
    g.board 0 col == g.board 1 col && g.board 1 col == g.board 2 col &&
      g.board 0 col != Symbol.EMPTY) ||
  (if g.board 1 1 != Symbol.EMPTY then
    (g.board 0 0 == g.board 1 1 && g.board 1 1 == g.board 2 2) ||
    (g.board 0 2 == g.board 1 1 && g.board 1 1 == g.board 2 0)
  else false)

/-- `TicTacToe::flatten`: pushes each cell's character row by row into a
string, producing the canonical state key. -/
def TicTacToe.flatten (g : TicTacToe) : String :=
  ⟨(List.finRange 3).foldl
    (fun acc row =>
      (List.finRange 3).foldl (fun acc col => acc ++ [(g.board row col).as_char]) acc)
    []⟩

/-- `TicTacToe::possible_moves`: the nested `for row in 0..=2 { for col in
0..=2 { .. } }` loops pushing every EMPTY cell, embedded as folds. -/
def TicTacToe.possible_moves (g : TicTacToe) : List (Nat × Nat) :=
  (List.finRange 3).foldl
    (fun moves row =>
      (List.finRange 3).foldl
        (fun moves col =>
          if g.board row col = Symbol.EMPTY then moves ++ [(row.val, col.val)] else moves)
        moves)
    []

/-! Specification-side definitions for the tic-tac-toe claims.  These are
written from the claims' words and compared with the embedded code. -/

/-- All in-range cells `(row, col)` with `row, col ∈ 0..=2`, in row-major
order. -/
def rowMajorCells : List (Nat × Nat) :=
  (List.range 3).flatMap fun row => (List.range 3).map fun col => (row, col)

/-- Specification wording of `possible_moves`: exactly the in-range cells
whose symbol is EMPTY (equivalently, the legal cells), in row-major
order. -/
def TicTacToe.possibleMovesSpec (g : TicTacToe) : List (Nat × Nat) :=
  rowMajorCells.filter fun cell => g.legal_move cell == some true

/-- Specification wording of a win: some row, some column or one of the two
diagonals holds three equal non-EMPTY symbols. -/
def TicTacToe.winSpec (g : TicTacToe) : Prop :=
  (∃ row : Fin 3, g.board row 0 = g.board row 1 ∧ g.board row 1 = g.board row 2 ∧
    g.board row 0 ≠ Symbol.EMPTY) ∨
  (∃ col : Fin 3, g.board 0 col = g.board 1 col ∧ g.board 1 col = g.board 2 col ∧
    g.board 0 col ≠ Symbol.EMPTY) ∨
  (g.board 0 0 = g.board 1 1 ∧ g.board 1 1 = g.board 2 2 ∧ g.board 0 0 ≠ Symbol.EMPTY) ∨
  (g.board 0 2 = g.board 1 1 ∧ g.board 1 1 = g.board 2 0 ∧ g.board 0 2 ≠ Symbol.EMPTY)

/-! Helper lemmas about the loop shapes used by `possible_moves`. -/

theorem foldl_push_filter {α β : Type} (p : α → Prop) [DecidablePred p] (h : α → β) :
    ∀ (l : List α) (acc : List β),
      l.foldl (fun ms x => if p x then ms ++ [h x] else ms) acc =
        acc ++ (l.filter fun x => decide (p x)).map h := by
  intro l
  induction l with
  | nil => simp
  | cons x xs ih =>
    intro acc
    by_cases hx : p x <;> simp [hx, ih, List.append_assoc]

theorem foldl_append_eq_flatMap {α β : Type} (f : α → List β) :
    ∀ (l : List α) (acc : List β),
      l.foldl (fun ms x => ms ++ f x) acc = acc ++ l.flatMap f := by
  intro l
  induction l with
  | nil => simp
  | cons x xs ih =>
    intro acc
    simp [ih, List.append_assoc]

theorem legal_move_val (g : TicTacToe) (r c : Fin 3) :
    (g.legal_move (r.val, c.val) == some true) = decide (g.board r c = Symbol.EMPTY) := by
  have h : (r.val, c.val).1 < 3 ∧ (r.val, c.val).2 < 3 := ⟨r.isLt, c.isLt⟩
  rw [TicTacToe.legal_move, dif_pos h]
  by_cases hb : g.board r c = Symbol.EMPTY <;> simp [Fin.eta, hb]

theorem rowMajorCells_eq :
    rowMajorCells =
      (List.finRange 3).flatMap fun r => (List.finRange 3).map fun c => (r.val, c.val) := by
  decide

theorem mem_rowMajorCells (r c : Nat) : (r, c) ∈ rowMajorCells ↔ r < 3 ∧ c < 3 := by
  simp only [rowMajorCells, List.mem_flatMap, List.mem_map, List.mem_range, Prod.mk.injEq]
  constructor
  · rintro ⟨a, ha, b, hb, h1, h2⟩
    omega
  · rintro ⟨hr, hc⟩
    exact ⟨r, hr, c, hc, rfl, rfl⟩

theorem possible_moves_eq_spec (g : TicTacToe) : g.possible_moves = g.possibleMovesSpec := by
  have inner : ∀ (r : Fin 3) (acc : List (Nat × Nat)),
      (List.finRange 3).foldl
        (fun moves col =>
          if g.board r col = Symbol.EMPTY then moves ++ [(r.val, col.val)] else moves) acc =
      acc ++ ((List.finRange 3).map fun c => (r.val, c.val)).filter
        (fun cell => g.legal_move cell == some true) := by
    intro r acc
    rw [foldl_push_filter (fun col => g.board r col = Symbol.EMPTY)
      (fun col => (r.val, col.val)), List.filter_map]
    have hp : ((fun cell => g.legal_move cell == some true) ∘ fun c : Fin 3 => (r.val, c.val)) =
        fun c : Fin 3 => decide (g.board r c = Symbol.EMPTY) := by
      funext c
      simp only [Function.comp_apply]
      exact legal_move_val g r c
    rw [hp]
  unfold TicTacToe.possible_moves TicTacToe.possibleMovesSpec
  rw [rowMajorCells_eq, List.filter_flatMap]
  have step : (fun (moves : List (Nat × Nat)) (row : Fin 3) =>
      (List.finRange 3).foldl
        (fun ms col =>
          if g.board row col = Symbol.EMPTY then ms ++ [(row.val, col.val)] else ms) moves) =
      fun moves row =>
        moves ++ ((List.finRange 3).map fun c => (row.val, c.val)).filter
          (fun cell => g.legal_move cell == some true) := by
    funext moves row
    exact inner row moves
  rw [step, foldl_append_eq_flatMap]
  simp

/-- C9: for every board, `possible_moves` returns exactly the in-range cells
whose symbol is EMPTY, in row-major order and without duplicates, and for
every in-range cell, `legal_move` answers true exactly when the cell is an
element of `possible_moves`. -/
theorem possible_moves_legal_move_spec (g : TicTacToe) :
    g.possible_moves = g.possibleMovesSpec ∧ g.possible_moves.Nodup ∧
      ∀ r c : Nat, r < 3 → c < 3 →
        (g.legal_move (r, c) = some true ↔ (r, c) ∈ g.possible_moves) := by
  have key := possible_moves_eq_spec g
  have nd : g.possibleMovesSpec.Nodup := by
    exact List.Nodup.filter _ (by decide)
  refine ⟨key, key ▸ nd, fun r c hr hc => ?_⟩
  rw [key]
  unfold TicTacToe.possibleMovesSpec
  rw [List.mem_filter]
  constructor
  · intro hl
    exact ⟨(mem_rowMajorCells r c).mpr ⟨hr, hc⟩, by simp [hl]⟩
  · rintro ⟨-, hp⟩
    simpa using hp

/-- C9 witness: the membership characterization evaluated on a concrete
board with one occupied cell. -/
theorem possible_moves_legal_move_spec_witness :
    0 < 3 ∧ 2 < 3 ∧
      (TicTacToe.legal_move ⟨fun r c => if r = 1 ∧ c = 1 then Symbol.X else Symbol.EMPTY⟩
          (0, 2) = some true ↔
        (0, 2) ∈ TicTacToe.possible_moves
          ⟨fun r c => if r = 1 ∧ c = 1 then Symbol.X else Symbol.EMPTY⟩) :=
  ⟨by decide, by decide,
   (possible_moves_legal_move_spec
     ⟨fun r c => if r = 1 ∧ c = 1 then Symbol.X else Symbol.EMPTY⟩).2.2 0 2
     (by decide) (by decide)⟩

/-- C10: `check_win` is true exactly when some row, column or diagonal holds
three equal non-EMPTY symbols; the centre-cell short-circuit misses no
winning diagonal. -/
theorem check_win_iff_winSpec (g : TicTacToe) : g.check_win = true ↔ g.winSpec := by
  unfold TicTacToe.check_win TicTacToe.winSpec
  by_cases h11 : g.board 1 1 = Symbol.EMPTY
  · rw [if_neg (by simp [h11] : ¬((g.board 1 1 != Symbol.EMPTY) = true))]
    simp only [Bool.or_eq_true, List.any_eq_true, List.mem_finRange, true_and,
      Bool.and_eq_true, beq_iff_eq, bne_iff_ne, ne_eq, Bool.false_eq_true, or_false]
    constructor
    · rintro (⟨row, h⟩ | ⟨col, h⟩)
      · exact Or.inl ⟨row, h.1.1, h.1.2, h.2⟩
      · exact Or.inr (Or.inl ⟨col, h.1.1, h.1.2, h.2⟩)
    · rintro (⟨row, h1, h2, h3⟩ | ⟨col, h1, h2, h3⟩ | ⟨h1, h2, h3⟩ | ⟨h1, h2, h3⟩)
      · exact Or.inl ⟨row, ⟨h1, h2⟩, h3⟩
      · exact Or.inr ⟨col, ⟨h1, h2⟩, h3⟩
      · exact absurd (h1.trans h11) h3
      · exact absurd (h1.trans h11) h3
  · rw [if_pos (by simp [h11] : (g.board 1 1 != Symbol.EMPTY) = true)]
    simp only [Bool.or_eq_true, List.any_eq_true, List.mem_finRange, true_and,
      Bool.and_eq_true, beq_iff_eq, bne_iff_ne, ne_eq]
    constructor
    · rintro ((⟨row, h⟩ | ⟨col, h⟩) | (⟨hd1, hd2⟩ | ⟨hd1, hd2⟩))
      · exact Or.inl ⟨row, h.1.1, h.1.2, h.2⟩
      · exact Or.inr (Or.inl ⟨col, h.1.1, h.1.2, h.2⟩)
      · exact Or.inr (Or.inr (Or.inl ⟨hd1, hd2, fun hh => h11 (hd1.symm.trans hh)⟩))
      · exact Or.inr (Or.inr (Or.inr ⟨hd1, hd2, fun hh => h11 (hd1.symm.trans hh)⟩))
    · rintro (⟨row, h1, h2, h3⟩ | ⟨col, h1, h2, h3⟩ | ⟨h1, h2, h3⟩ | ⟨h1, h2, h3⟩)
      · exact Or.inl (Or.inl ⟨row, ⟨h1, h2⟩, h3⟩)
      · exact Or.inl (Or.inr ⟨col, ⟨h1, h2⟩, h3⟩)
      · exact Or.inr (Or.inl ⟨h1, h2⟩)
      · exact Or.inr (Or.inr ⟨h1, h2⟩)

/-- C10 witness: the iff evaluated on a concrete winning board (a full X
first column). -/
theorem check_win_iff_winSpec_witness :
    TicTacToe.check_win ⟨fun _ c => if c = 0 then Symbol.X else Symbol.EMPTY⟩ = true ↔
      TicTacToe.winSpec ⟨fun _ c => if c = 0 then Symbol.X else Symbol.EMPTY⟩ :=
  check_win_iff_winSpec ⟨fun _ c => if c = 0 then Symbol.X else Symbol.EMPTY⟩

/-! The learning engine from `src/menace.rs` and `src/adjust.rs`. -/

/-- `Bead` from `src/menace.rs`: an action (a cell, Rust `(usize, usize)`)
together with a bead count (Rust `u32`, embedded as `Nat` kept below
`2 ^ 32` by every operation). -/
structure Bead where
  action : Nat × Nat
  count : Nat
deriving DecidableEq, Repr

/-- `Bead::INITIAL_COUNT`: the initial count of beads in each set. -/
def Bead.INITIAL_COUNT : Nat := 2

/-- `Bead::new`: a bead set for `action` with the initial count. -/
def Bead.new (action : Nat × Nat) : Bead :=
  ⟨action, Bead.INITIAL_COUNT⟩

/-- The matchbox store: Rust `HashMap<String, Vec<Bead>>`, embedded as an
association list whose keys are unique (`HashMap` holds each key once);
lookup is by value equality of keys. -/
abbrev Matchbox : Type := List (String × List Bead)

/-- `HashMap::get`: the value stored at `k`, if any. -/
def lookupAL (mb : Matchbox) (k : String) : Option (List Bead) :=
  match mb with
  | [] => none
  | (k2, v) :: rest => if k2 = k then some v else lookupAL rest k

/-- `HashMap::insert`: replaces the value at an existing key, otherwise
appends a new binding. -/
def insertAL (mb : Matchbox) (k : String) (v : List Bead) : Matchbox :=
  match mb with
  | [] => [(k, v)]
  | (k2, v2) :: rest => if k2 = k then (k, v) :: rest else (k2, v2) :: insertAL rest k v

/-- `Adjust` from `src/adjust.rs`: the outcome category of a finished
game. -/
inductive Adjust where
  | WIN
  | LOSE
  | DRAW
deriving DecidableEq, Repr

/-- The `repr(i64)` discriminants of `Adjust`: WIN = 3, LOSE = -1,
DRAW = 1; `adjust` reads them through `delta as i64`. -/
def Adjust.toInt : Adjust → Int
  | .WIN => 3
  | .LOSE => -1
  | .DRAW => 1

/-- `Menace` from `src/menace.rs`: the matchbox table and the episode
record of `(state key, chosen index)` pairs. -/
structure Menace where
  matchbox : Matchbox
  record : List (String × Nat)
deriving DecidableEq, Repr

/-- `Menace::new`: empty matchboxes and empty record. -/
def Menace.new : Menace :=
  ⟨[], []⟩

/-- `Menace::populate`: inserts a fresh entry holding one `Bead::new` per
possible move. -/
def Menace.populate (m : Menace) (game_state : String) (moves : List (Nat × Nat)) : Menace :=
  ⟨insertAL m.matchbox game_state (moves.map Bead.new), m.record⟩

/-- Lines 151–153 of `Menace::choose`: `if
!self.matchbox.contains_key(&game_state) { self.populate(..) }` — the
lazy-initialization step. -/
def Menace.ensureState (m : Menace) (game_state : String) (moves : List (Nat × Nat)) : Menace :=
  if (lookupAL m.matchbox game_state).isSome then m else m.populate game_state moves

/-- The error value of `rand::distributions::WeightedIndex::new` (the
`WeightedError` cases reachable from `u32` weights): `NoItem` when the
weight iterator is empty, `AllWeightsZero` when the total weight is
zero. -/
inductive WeightedError where
  | noItem
  | allWeightsZero
deriving DecidableEq, Repr

/-- `WeightedIndex::new` on the documented behaviour of rand (an external
dependency): error on an empty iterator, error on a zero total, otherwise
the total weight. -/
def weightedIndexNew (weights : List Nat) : Except WeightedError Nat :=
  match weights with
  | [] => .error .noItem
  | _ =>
    let total := weights.foldl (fun a b => a + b) 0
    if total = 0 then .error .allWeightsZero else .ok total

/-- `WeightedIndex::sample`: with `x` uniform in `[0, total)`, the selected
index is the one whose cumulative-weight interval contains `x` (index `i`
is selected iff `w_0 + .. + w_(i-1) <= x < w_0 + .. + w_i`); a zero-weight
entry is never selected. -/
def sampleWeighted : List Nat → Nat → Nat
  | [], _ => 0
  | w :: rest, x => if x < w then 0 else 1 + sampleWeighted rest (x - w)

/-- The `panic!`/`unwrap` sites of `Menace::choose`, each embedded as a
distinct error value (a Rust panic aborts the program there). -/
inductive ChooseFailure where
  /-- Panic of `WeightedIndex::new(..).unwrap()` (line 156). -/
  | weightedIndex (e : WeightedError)
  /-- Panic of `self.matchbox.get(&game_state).unwrap()` (line 155,
  unreachable after `ensureState`). -/
  | matchboxMissing
  /-- Panic of `moves.get(index).unwrap()` (line 162, unreachable since the
  sampled index is in range). -/
  | beadIndex
  /-- Rust index panic inside `legal_move` for an out-of-range cell. -/
  | boardIndex
  /-- The explicit `panic!("MENACE attempted to make an illegal move.")`
  (line 167). -/
  | illegalMove
deriving DecidableEq, Repr

/-- `Menace::choose`: looks up or lazily initializes the state entry,
samples a bead by weighted random choice (the random draw is the `r`
argument; the sampled point in `[0, total)` is `r % total`), records the
`(state, index)` pair, checks legality and returns the chosen cell. -/
def Menace.choose (m : Menace) (game : TicTacToe) (r : Nat) :
    Except ChooseFailure ((Nat × Nat) × Menace) :=
  let game_state := game.flatten
  let m1 := m.ensureState game_state game.possible_moves
  match lookupAL m1.matchbox game_state with
  | none => .error .matchboxMissing
  | some moves =>
    match weightedIndexNew (moves.map Bead.count) with
    | .error e => .error (.weightedIndex e)
    | .ok total =>
      let index := sampleWeighted (moves.map Bead.count) (r % total)
      match moves[index]? with
      | none => .error .beadIndex
      | some bead =>
        let m2 : Menace := ⟨m1.matchbox, m1.record ++ [(game_state, index)]⟩
        match game.legal_move bead.action with
        | none => .error .boardIndex
        | some false => .error .illegalMove
        | some true => .ok (bead.action, m2)

/-- `MIN_COUNT`: the floor below which `adjust` never lowers a count — the
`else 0` branch of `Menace::adjust` (the spec's design-configurable floor,
0 in this implementation). -/
def MIN_COUNT : Nat := 0

/-- The `u32` modulus: `new_bead_count as u32` truncates to the low 32
bits. -/
def U32_MOD : Nat := 2 ^ 32

/-- Lines 203–209 of `Menace::adjust`: `let new_bead_count = (bead.count as
i64) + delta as i64; bead.count = if new_bead_count >= 0 { new_bead_count
as u32 } else { 0 }`. -/
def adjustCount (c : Nat) (d : Int) : Nat :=
  let new_bead_count : Int := (c : Int) + d
  if 0 ≤ new_bead_count then new_bead_count.toNat % U32_MOD else 0

/-- One iteration of the `adjust` loop: `self.matchbox.get_mut(key).unwrap()`
then `moves.get_mut(*index).unwrap()` (each `unwrap` panic embedded as
`none`), updating the bead count in place. -/
def adjustAt (mb : Matchbox) (k : String) (i : Nat) (d : Int) : Option Matchbox :=
  match mb with
  | [] => none
  | (k2, bs) :: rest =>
    if k2 = k then
      match bs[i]? with
      | none => none
      | some b => some ((k2, bs.set i { b with count := adjustCount b.count d }) :: rest)
    else
      (adjustAt rest k i d).map (fun tail => (k2, bs) :: tail)

/-- `Menace::adjust`: applies the delta to every `(key, index)` pair of the
record in order, then clears the record. -/
def Menace.adjust (m : Menace) (delta : Adjust) : Option Menace :=
  (m.record.foldlM (fun mb e => adjustAt mb e.1 e.2 delta.toInt) m.matchbox).map
    (fun mb => ⟨mb, []⟩)

/-! Persistence: `Menace::save` / `Menace::load` serialize the matchbox
(and only the matchbox) through `serde_json`.  The JSON text layer is
external; the document is embedded as a JSON value tree (integral numbers
suffice: a fractional number is one more wrong-type case of `num`). -/

/-- A JSON document. -/
inductive Json where
  | null
  | bool (b : Bool)
  | num (n : Int)
  | str (s : String)
  | arr (items : List Json)
  | obj (fields : List (String × Json))

/-- Serde serialization of one `Bead` (derived `Serialize`): an object with
the fields in declaration order; a Rust tuple becomes a two-element
array. -/
def serializeBead (b : Bead) : Json :=
  .obj [("action", .arr [.num b.action.1, .num b.action.2]), ("count", .num b.count)]

/-- `Menace::save`: serializes `self.matchbox` — the record is not
persisted.  (The file-creation and write errors of `save` are plain I/O
failures with no further structure.) -/
def Menace.save (m : Menace) : Json :=
  .obj (m.matchbox.map fun e => (e.1, .arr (e.2.map serializeBead)))

/-- The `usize` bound checked when deserializing an action component. -/
def USIZE_MOD : Nat := 2 ^ 64

/-- Serde deserialization of a `usize`: an integral number in `[0, 2^64)`
(for a non-negative `n`, `n.toNat < USIZE_MOD` states `n < 2^64`). -/
def deserializeUsize (j : Json) : Except String Nat :=
  match j with
  | .num n => if 0 ≤ n ∧ n.toNat < USIZE_MOD then .ok n.toNat
              else .error "invalid value: out of range for usize"
  | _ => .error "invalid type: expected usize"

/-- Serde deserialization of a `u32`: an integral number in `[0, 2^32)`; in
particular a negative count is rejected. -/
def deserializeU32 (j : Json) : Except String Nat :=
  match j with
  | .num n => if 0 ≤ n ∧ n.toNat < U32_MOD then .ok n.toNat
              else .error "invalid value: out of range for u32"
  | _ => .error "invalid type: expected u32"

/-- The two components of a deserialized `(usize, usize)` action. -/
def deserializeActionPair (r c : Json) : Except String (Nat × Nat) :=
  match deserializeUsize r with
  | .error e => .error e
  | .ok rv =>
    match deserializeUsize c with
    | .error e => .error e
    | .ok cv => .ok (rv, cv)

/-- Serde deserialization of the `(usize, usize)` action: exactly a
two-element array. -/
def deserializeAction (j : Json) : Except String (Nat × Nat) :=
  match j with
  | .arr [r, c] => deserializeActionPair r c
  | _ => .error "invalid type: expected a tuple of size 2"

/-- One step of the field loop of serde's derived `Deserialize` for
`Bead`: fields are processed in document order, a duplicate field is
rejected, an unknown field is ignored (serde's default), and the first
error aborts the remaining fields. -/
def beadFieldStep (st : Except String (Option (Nat × Nat) × Option Nat))
    (field : String × Json) : Except String (Option (Nat × Nat) × Option Nat) :=
  match st with
  | .error e => .error e
  | .ok (a?, c?) =>
    if field.1 = "action" then
      match a? with
      | some _ => .error "duplicate field action"
      | none =>
        match deserializeAction field.2 with
        | .error e => .error e
        | .ok a => .ok (some a, c?)
    else if field.1 = "count" then
      match c? with
      | some _ => .error "duplicate field count"
      | none =>
        match deserializeU32 field.2 with
        | .error e => .error e
        | .ok c => .ok (a?, some c)
    else .ok (a?, c?)

/-- The field list of one serialized `Bead` folded through
`beadFieldStep`; a missing field is rejected at the end. -/
def deserializeBeadObj (fields : List (String × Json)) : Except String Bead :=
  match fields.foldl beadFieldStep (.ok (none, none)) with
  | .error e => .error e
  | .ok (some a, some c) => .ok ⟨a, c⟩
  | .ok (none, _) => .error "missing field action"
  | .ok (some _, none) => .error "missing field count"

/-- Serde deserialization of one `Bead`: an object whose fields describe an
action and a count. -/
def deserializeBead (j : Json) : Except String Bead :=
  match j with
  | .obj fields => deserializeBeadObj fields
  | _ => .error "invalid type: expected struct Bead"

/-- The element loop of serde's `Vec<Bead>` deserialization: elements in
order, the first error aborting. -/
def deserializeBeadList : List Json → Except String (List Bead)
  | [] => .ok []
  | j :: rest =>
    match deserializeBead j with
    | .error e => .error e
    | .ok b =>
      match deserializeBeadList rest with
      | .error e => .error e
      | .ok bs => .ok (b :: bs)

/-- Serde deserialization of a `Vec<Bead>`. -/
def deserializeBeads (j : Json) : Except String (List Bead) :=
  match j with
  | .arr items => deserializeBeadList items
  | _ => .error "invalid type: expected a sequence"

/-- The field loop of serde's `HashMap<String, Vec<Bead>>` deserialization:
the fields of a JSON object inserted in order (a duplicate key overwrites
the earlier one). -/
def readMatchboxFields : List (String × Json) → Matchbox → Except String Matchbox
  | [], mb => .ok mb
  | (k, v) :: rest, mb =>
    match deserializeBeads v with
    | .error e => .error e
    | .ok bs => readMatchboxFields rest (insertAL mb k bs)

/-- Serde deserialization of `HashMap<String, Vec<Bead>>`. -/
def deserializeMatchbox (j : Json) : Except String Matchbox :=
  match j with
  | .obj fields => readMatchboxFields fields []
  | _ => .error "invalid type: expected a map"

/-- What `fs::read_to_string` + the `serde_json` text layer can hand to
`Menace::load`: a missing/unreadable file, unparseable text, or a parsed
document. -/
inductive LoadFile where
  | missing
  | invalidText
  | doc (j : Json)

/-- `Menace::load`: a read failure or any deserialization failure becomes a
distinct `Err` message; on success the loaded matchbox is paired with an
empty record. -/
def Menace.load (filename : String) (file : LoadFile) : Except String Menace :=
  match file with
  | .missing => .error ("Unable to read file: " ++ filename)
  | .invalidText => .error ("Failed to load JSON file: " ++ filename)
  | .doc j =>
    match deserializeMatchbox j with
    | .ok mb => .ok ⟨mb, []⟩
    | .error _ => .error ("Failed to load JSON file: " ++ filename)

/-- Lines 14–21 of `src/main.rs`: the engine used by `main` is the loaded
one, or a fresh `Menace::new()` when `load` reported any error (the error
message is printed, the program never aborts). -/
def initialMenace (filename : String) (file : LoadFile) : Menace :=
  match Menace.load filename file with
  | .ok m => m
  | .error _ => Menace.new

/-! Association-list facts used by the engine claims. -/

theorem lookupAL_insertAL (mb : Matchbox) (k k2 : String) (v : List Bead) :
    lookupAL (insertAL mb k v) k2 = if k = k2 then some v else lookupAL mb k2 := by
  induction mb with
  | nil => rfl
  | cons kv rest ih =>
    obtain ⟨k3, v3⟩ := kv
    by_cases h3 : k3 = k
    · subst h3
      by_cases h2 : k3 = k2 <;> simp [insertAL, lookupAL, h2]
    · by_cases h2 : k3 = k2
      · subst h2
        have : ¬k = k3 := fun h => h3 h.symm
        simp [insertAL, lookupAL, h3, this, ih]
      · simp [insertAL, lookupAL, h3, h2, ih]

/-- C4: lazy state initialization — when the state key is present the
entry (and the whole engine) is untouched and the legal-move enumeration
is ignored; when absent, a fresh entry is inserted holding exactly one
bead per legal action, every bead carrying the fixed initial count
`INITIAL_COUNT = 2 > 0`, and no other key is affected. -/
theorem ensureState_lazy_init (m : Menace) (key : String) (moves : List (Nat × Nat)) :
    ((lookupAL m.matchbox key).isSome = true → m.ensureState key moves = m) ∧
    ((lookupAL m.matchbox key).isSome = false →
      lookupAL (m.ensureState key moves).matchbox key = some (moves.map Bead.new) ∧
      (m.ensureState key moves).record = m.record ∧
      ∀ k2, k2 ≠ key →
        lookupAL (m.ensureState key moves).matchbox k2 = lookupAL m.matchbox k2) ∧
    ((moves.map Bead.new).map Bead.action = moves ∧
      ∀ b ∈ moves.map Bead.new, b.count = Bead.INITIAL_COUNT) ∧
    Bead.INITIAL_COUNT = 2 ∧ 0 < Bead.INITIAL_COUNT := by
  refine ⟨fun hs => ?_, fun hn => ?_, ⟨?_, ?_⟩, rfl, by decide⟩
  · unfold Menace.ensureState
    rw [if_pos hs]
  · have hne : ¬(lookupAL m.matchbox key).isSome = true := by simp [hn]
    unfold Menace.ensureState
    rw [if_neg hne]
    unfold Menace.populate
    refine ⟨?_, rfl, fun k2 hk2 => ?_⟩
    · rw [lookupAL_insertAL, if_pos rfl]
    · rw [lookupAL_insertAL, if_neg (fun h => hk2 h.symm)]
  · rw [List.map_map, show Bead.action ∘ Bead.new = id from rfl, List.map_id]
  · intro b hb
    simp only [List.mem_map] at hb
    obtain ⟨x, -, rfl⟩ := hb
    rfl

/-- C4 witness: a present key is left alone; an absent key gets the fresh
entry. -/
theorem ensureState_lazy_init_witness :
    ((lookupAL (⟨[("k", [⟨(0, 0), 7⟩])], []⟩ : Menace).matchbox "k").isSome = true ∧
      (⟨[("k", [⟨(0, 0), 7⟩])], []⟩ : Menace).ensureState "k" [(1, 1)] =
        ⟨[("k", [⟨(0, 0), 7⟩])], []⟩) ∧
    ((lookupAL (Menace.new).matchbox "k").isSome = false ∧
      lookupAL ((Menace.new).ensureState "k" [(1, 1)]).matchbox "k" =
        some [⟨(1, 1), 2⟩]) :=
  ⟨⟨by decide, (ensureState_lazy_init ⟨[("k", [⟨(0, 0), 7⟩])], []⟩ "k" [(1, 1)]).1 (by decide)⟩,
   ⟨by decide, ((ensureState_lazy_init Menace.new "k" [(1, 1)]).2.1 (by decide)).1⟩⟩

/-! Bounds on the adjusted counts. -/

theorem adjustCount_lt (c : Nat) (d : Int) : adjustCount c d < U32_MOD := by
  show (if 0 ≤ (c : Int) + d then ((c : Int) + d).toNat % U32_MOD else 0) < U32_MOD
  split
  · exact Nat.mod_lt _ (by decide)
  · decide

theorem adjustAt_mem (d : Int) :
    ∀ (mb : Matchbox) (k : String) (i : Nat) (mb' : Matchbox),
      adjustAt mb k i d = some mb' → ∀ kv ∈ mb', ∀ b ∈ kv.2,
        (∃ kv0 ∈ mb, b ∈ kv0.2) ∨ ∃ c, b.count = adjustCount c d := by
  intro mb
  induction mb with
  | nil => intro k i mb' h; simp [adjustAt] at h
  | cons kv2 rest ih =>
    intro k i mb' h kv hkv b hb
    obtain ⟨k2, bs⟩ := kv2
    unfold adjustAt at h
    by_cases hk : k2 = k
    · rw [if_pos hk] at h
      match hbi : bs[i]? with
      | none => rw [hbi] at h; exact absurd h (by simp)
      | some b0 =>
        rw [hbi] at h
        injection h with h
        subst h
        rcases List.mem_cons.mp hkv with rfl | hmem
        · rcases List.mem_or_eq_of_mem_set hb with hold | rfl
          · exact Or.inl ⟨(k2, bs), List.mem_cons_self _ _, hold⟩
          · exact Or.inr ⟨b0.count, rfl⟩
        · exact Or.inl ⟨kv, List.mem_cons_of_mem _ hmem, hb⟩
    · rw [if_neg hk] at h
      match htail : adjustAt rest k i d with
      | none => rw [htail] at h; exact absurd h (by simp)
      | some tail =>
        rw [htail] at h
        injection h with h
        subst h
        rcases List.mem_cons.mp hkv with rfl | hmem
        · exact Or.inl ⟨(k2, bs), List.mem_cons_self _ _, hb⟩
        · rcases ih k i tail htail kv hmem b hb with ⟨kv0, h0, hb0⟩ | hc
          · exact Or.inl ⟨kv0, List.mem_cons_of_mem _ h0, hb0⟩
          · exact Or.inr hc

theorem foldl_adjust_wf (d : Int) :
    ∀ (rec : List (String × Nat)) (mb mb' : Matchbox),
      rec.foldlM (fun mb e => adjustAt mb e.1 e.2 d) mb = some mb' →
      (∀ kv ∈ mb, ∀ b ∈ kv.2, b.count < U32_MOD) →
      (∀ kv ∈ mb', ∀ b ∈ kv.2, b.count < U32_MOD) := by
  intro rec
  induction rec with
  | nil =>
    intro mb mb' h hwf
    simp only [List.foldlM_nil] at h
    injection h with h
    subst h
    exact hwf
  | cons e rest ih =>
    intro mb mb' h hwf
    simp only [List.foldlM_cons] at h
    match h1 : adjustAt mb e.1 e.2 d with
    | none => rw [h1] at h; exact absurd h (by simp)
    | some mb1 =>
      rw [h1] at h
      refine ih mb1 mb' h fun kv hkv b hb => ?_
      rcases adjustAt_mem d mb e.1 e.2 mb1 h1 kv hkv b hb with ⟨kv0, h0, hb0⟩ | ⟨c, hc⟩
      · exact hwf kv0 h0 b hb0
      · rw [hc]
        exact adjustCount_lt c d

/-- C2: after any successful `adjust` call, every count in the weight
table is at least `MIN_COUNT`; the `u32` range is preserved; and a
negative intermediate value is clamped to `MIN_COUNT`, never wrapped
below zero. -/
theorem adjust_floor_invariant (m : Menace) (delta : Adjust) (m' : Menace)
    (hadj : m.adjust delta = some m') :
    (∀ kv ∈ m'.matchbox, ∀ b ∈ kv.2, MIN_COUNT ≤ b.count) ∧
    ((∀ kv ∈ m.matchbox, ∀ b ∈ kv.2, b.count < U32_MOD) →
      ∀ kv ∈ m'.matchbox, ∀ b ∈ kv.2, b.count < U32_MOD) ∧
    (∀ c : Nat, (c : Int) + delta.toInt < 0 → adjustCount c delta.toInt = MIN_COUNT) := by
  refine ⟨fun kv _ b _ => Nat.zero_le _, fun hwf kv hkv b hb => ?_, fun c hc => ?_⟩
  · unfold Menace.adjust at hadj
    match hf : m.record.foldlM (fun mb e => adjustAt mb e.1 e.2 delta.toInt) m.matchbox with
    | none => rw [hf] at hadj; exact absurd hadj (by simp)
    | some mb1 =>
      rw [hf] at hadj
      injection hadj with hadj
      subst hadj
      exact foldl_adjust_wf delta.toInt m.record m.matchbox mb1 hf hwf kv hkv b hb
  · unfold adjustCount
    rw [if_neg (by omega)]
    rfl

/-- C2 witness: a LOSE adjustment on a zero count stays at the floor. -/
theorem adjust_floor_invariant_witness :
    (⟨[("k", [⟨(0, 0), 0⟩])], [("k", 0)]⟩ : Menace).adjust .LOSE =
      some ⟨[("k", [⟨(0, 0), 0⟩])], []⟩ ∧
    ∀ kv ∈ (⟨[("k", [⟨(0, 0), 0⟩])], []⟩ : Menace).matchbox, ∀ b ∈ kv.2,
      MIN_COUNT ≤ b.count :=
  ⟨by decide,
   (adjust_floor_invariant ⟨[("k", [⟨(0, 0), 0⟩])], [("k", 0)]⟩ .LOSE
     ⟨[("k", [⟨(0, 0), 0⟩])], []⟩ (by decide)).1⟩

/-! Specification-side formulation of the credit-assignment update. -/

/-- The claim's wording of one count update, as written:
`count = max(count + delta, MIN_COUNT)` with no u32 truncation. -/
def claimCount (c : Nat) (d : Int) : Nat :=
  (max ((c : Int) + d) ((MIN_COUNT : Nat) : Int)).toNat

/-- The amended wording of one count update: the truncation to 32 bits of
`max(count + delta, MIN_COUNT)` (the two agree whenever
`count + delta < 2 ^ 32`). -/
def specCount (c : Nat) (d : Int) : Nat :=
  (max ((c : Int) + d) ((MIN_COUNT : Nat) : Int)).toNat % U32_MOD

/-- One record entry applied to the table with an arbitrary per-count
update function (specification side of the `adjust` loop body). -/
def updateAt (upd : Nat → Nat) : Matchbox → String → Nat → Option Matchbox
  | [], _, _ => none
  | (k2, bs) :: rest, k, i =>
    if k2 = k then
      match bs[i]? with
      | none => none
      | some b => some ((k2, bs.set i { b with count := upd b.count }) :: rest)
    else
      (updateAt upd rest k i).map (fun tail => (k2, bs) :: tail)

/-- Specification side of `adjust`: every record occurrence applied in
order with the update `upd`, then the record cleared. -/
def specApply (upd : Nat → Nat) (m : Menace) : Option Menace :=
  (m.record.foldlM (fun mb e => updateAt upd mb e.1 e.2) m.matchbox).map
    (fun mb => ⟨mb, []⟩)

theorem adjustCount_eq_specCount (c : Nat) (d : Int) :
    adjustCount c d = specCount c d := by
  show (if 0 ≤ (c : Int) + d then ((c : Int) + d).toNat % U32_MOD else 0) =
    (max ((c : Int) + d) ((MIN_COUNT : Nat) : Int)).toNat % U32_MOD
  by_cases h : 0 ≤ (c : Int) + d
  · rw [if_pos h, max_eq_left (by simpa [MIN_COUNT] using h)]
  · rw [if_neg h, max_eq_right (by simp [MIN_COUNT]; omega)]
    simp [MIN_COUNT]

theorem adjustAt_eq_updateAt (d : Int) :
    ∀ (mb : Matchbox) (k : String) (i : Nat),
      adjustAt mb k i d = updateAt (fun c => specCount c d) mb k i := by
  intro mb
  induction mb with
  | nil => intro k i; rfl
  | cons kv rest ih =>
    intro k i
    obtain ⟨k2, bs⟩ := kv
    unfold adjustAt updateAt
    by_cases hk : k2 = k
    · rw [if_pos hk, if_pos hk]
      cases bs[i]? with
      | none => rfl
      | some b => simp [adjustCount_eq_specCount]
    · rw [if_neg hk, if_neg hk, ih]

/-- C3 (amended): `adjust` sets, once per record occurrence and in record
order, the addressed count to the u32 truncation of
`max(count + delta, MIN_COUNT)`; it then clears the record, so after any
successful adjust the record is empty, and an adjust on an empty record
returns the weight table unchanged. -/
theorem adjust_spec (m : Menace) (delta : Adjust) :
    m.adjust delta = specApply (fun c => specCount c delta.toInt) m ∧
    (∀ m', m.adjust delta = some m' → m'.record = []) ∧
    (m.record = [] → m.adjust delta = some ⟨m.matchbox, []⟩) := by
  have hfold : ∀ (rec : List (String × Nat)) (mb : Matchbox),
      rec.foldlM (fun mb2 e => adjustAt mb2 e.1 e.2 delta.toInt) mb =
        rec.foldlM (fun mb2 e => updateAt (fun c => specCount c delta.toInt) mb2 e.1 e.2) mb := by
    intro rec
    induction rec with
    | nil => intro mb; rfl
    | cons e rest ih =>
      intro mb
      simp only [List.foldlM_cons, adjustAt_eq_updateAt]
  refine ⟨?_, fun m' h => ?_, fun hrec => ?_⟩
  · unfold Menace.adjust specApply
    rw [hfold]
  · unfold Menace.adjust at h
    match hf : m.record.foldlM (fun mb e => adjustAt mb e.1 e.2 delta.toInt) m.matchbox with
    | none => rw [hf] at h; exact absurd h (by simp)
    | some mb1 =>
      rw [hf] at h
      injection h with h
      rw [← h]
  · unfold Menace.adjust
    rw [hrec]
    rfl

/-- C3 witness: an adjust on an empty record is a no-op with an empty
record afterwards. -/
theorem adjust_spec_witness :
    (Menace.new).record = [] ∧ (Menace.new).adjust .DRAW = some ⟨(Menace.new).matchbox, []⟩ :=
  ⟨rfl, (adjust_spec Menace.new .DRAW).2.2 rfl⟩

/-- C3 counterexample: with a stored count at the u32 maximum (a value any
loaded table may hold), a WIN adjustment stores 2 — the truncation of
2 ^ 32 + 2 — not `max(count + 3, MIN_COUNT)`. -/
theorem adjust_truncation_counterexample :
    (⟨[("k", [⟨(0, 0), 4294967295⟩])], [("k", 0)]⟩ : Menace).adjust .WIN =
      some ⟨[("k", [⟨(0, 0), 2⟩])], []⟩ ∧
    (⟨[("k", [⟨(0, 0), 4294967295⟩])], [("k", 0)]⟩ : Menace).adjust .WIN ≠
      specApply (fun c => claimCount c Adjust.WIN.toInt)
        ⟨[("k", [⟨(0, 0), 4294967295⟩])], [("k", 0)]⟩ := by
  constructor <;> decide

/-! Behaviour of `choose`. -/

theorem foldl_add_all_zero (l : List Nat) (h : ∀ x ∈ l, x = 0) :
    ∀ a, l.foldl (fun a b => a + b) a = a := by
  induction l with
  | nil => intro a; rfl
  | cons x xs ih =>
    intro a
    have hx : x = 0 := h x (List.mem_cons_self _ _)
    simp only [List.foldl_cons, hx, Nat.add_zero]
    exact ih (fun y hy => h y (List.mem_cons_of_mem _ hy)) a

theorem ensureState_record (m : Menace) (k : String) (mv : List (Nat × Nat)) :
    (m.ensureState k mv).record = m.record := by
  unfold Menace.ensureState Menace.populate
  split <;> rfl

/-- C1 (amended): `choose` on a state whose entry exists and holds only
zero counts fails — the `WeightedIndex` construction reports
`AllWeightsZero` and the `unwrap` panics — for every random draw; there is
no uniform fallback. -/
theorem choose_all_zero_fails (m : Menace) (g : TicTacToe) (r : Nat)
    (e : List Bead) (he : lookupAL m.matchbox g.flatten = some e) (hne : e ≠ [])
    (hz : ∀ b ∈ e, b.count = 0) :
    m.choose g r = .error (.weightedIndex .allWeightsZero) := by
  have h1 : m.ensureState g.flatten g.possible_moves = m := by
    unfold Menace.ensureState
    rw [if_pos (by rw [he]; rfl)]
  have hw : weightedIndexNew (e.map Bead.count) = .error .allWeightsZero := by
    obtain ⟨b0, rest, rfl⟩ := List.exists_cons_of_ne_nil hne
    have ht : ((b0 :: rest).map Bead.count).foldl (fun a b => a + b) 0 = 0 := by
      refine foldl_add_all_zero _ (fun x hx => ?_) 0
      obtain ⟨b, hb, rfl⟩ := List.mem_map.mp hx
      exact hz b hb
    simp only [weightedIndexNew, List.map_cons]
    rw [if_pos (by simpa using ht)]
  simp only [Menace.choose, h1, he, hw]

/-- C1 witness: the amended theorem evaluated on a concrete starved
entry. -/
theorem choose_all_zero_fails_witness :
    lookupAL (⟨[("---------", [⟨(1, 1), 0⟩, ⟨(2, 2), 0⟩])], []⟩ : Menace).matchbox
        (TicTacToe.flatten ⟨fun _ _ => Symbol.EMPTY⟩) = some [⟨(1, 1), 0⟩, ⟨(2, 2), 0⟩] ∧
    ([⟨(1, 1), 0⟩, ⟨(2, 2), 0⟩] : List Bead) ≠ [] ∧
    (∀ b ∈ ([⟨(1, 1), 0⟩, ⟨(2, 2), 0⟩] : List Bead), b.count = 0) ∧
    (⟨[("---------", [⟨(1, 1), 0⟩, ⟨(2, 2), 0⟩])], []⟩ : Menace).choose
        ⟨fun _ _ => Symbol.EMPTY⟩ 3 = .error (.weightedIndex .allWeightsZero) :=
  ⟨by decide, by decide, by decide,
   choose_all_zero_fails ⟨[("---------", [⟨(1, 1), 0⟩, ⟨(2, 2), 0⟩])], []⟩
     ⟨fun _ _ => Symbol.EMPTY⟩ 3 [⟨(1, 1), 0⟩, ⟨(2, 2), 0⟩]
     (by decide) (by decide) (by decide)⟩

/-- C1 counterexample: on a state whose entry exists with all counts zero,
`choose` does not return an action — it fails with the all-weights-zero
unwrap panic, refuting the claimed uniform fallback. -/
theorem choose_uniform_fallback_counterexample :
    (⟨[("---------", [⟨(0, 0), 0⟩, ⟨(0, 1), 0⟩])], []⟩ : Menace).choose
        ⟨fun _ _ => Symbol.EMPTY⟩ 0 = .error (.weightedIndex .allWeightsZero) := by
  decide

/-- C6: a state whose entry has zero action weights makes `choose` fail
distinctly (the `NoItem` error of the weighted-index construction, a
precondition-violation panic), rather than doing nothing or returning a
value. -/
theorem choose_no_legal_actions (m : Menace) (g : TicTacToe) (r : Nat)
    (he : lookupAL (m.ensureState g.flatten g.possible_moves).matchbox g.flatten = some []) :
    m.choose g r = .error (.weightedIndex .noItem) := by
  simp only [Menace.choose, he]
  rfl

/-- C6 witness: a full board has no legal moves; the fresh entry is empty
and `choose` fails with the distinct `NoItem` error. -/
theorem choose_no_legal_actions_witness :
    lookupAL ((Menace.new).ensureState (TicTacToe.flatten ⟨fun _ _ => Symbol.X⟩)
        (TicTacToe.possible_moves ⟨fun _ _ => Symbol.X⟩)).matchbox
      (TicTacToe.flatten ⟨fun _ _ => Symbol.X⟩) = some [] ∧
    (Menace.new).choose ⟨fun _ _ => Symbol.X⟩ 0 = .error (.weightedIndex .noItem) :=
  ⟨by decide, choose_no_legal_actions Menace.new ⟨fun _ _ => Symbol.X⟩ 0 (by decide)⟩

/-- C5 (amended): whenever `choose` returns successfully, the returned
cell is the action of the bead at the sampled index of that state's entry
— an in-range index, never a descriptor foreign to the entry — and the
`(state key, index)` pair has been appended to the episode record;
`choose` does not always return, however: a state whose entry holds a
single zero-count action weight makes it fail (see the
counterexample). -/
theorem choose_ok_legal (m : Menace) (g : TicTacToe) (r : Nat) (a : Nat × Nat) (m' : Menace)
    (h : m.choose g r = .ok (a, m')) :
    ∃ e i b, lookupAL m'.matchbox g.flatten = some e ∧ e[i]? = some b ∧
      b.action = a ∧ a ∈ e.map Bead.action ∧ i < e.length ∧
      m'.record = m.record ++ [(g.flatten, i)] := by
  simp only [Menace.choose] at h
  cases hlook : lookupAL (m.ensureState g.flatten g.possible_moves).matchbox g.flatten with
  | none => rw [hlook] at h; exact absurd h (by simp)
  | some moves =>
    rw [hlook] at h
    dsimp only at h
    cases hwi : weightedIndexNew (moves.map Bead.count) with
    | error e => rw [hwi] at h; exact absurd h (by simp)
    | ok total =>
      rw [hwi] at h
      dsimp only at h
      cases hbi : moves[sampleWeighted (moves.map Bead.count) (r % total)]? with
      | none => rw [hbi] at h; exact absurd h (by simp)
      | some bead =>
        rw [hbi] at h
        dsimp only at h
        cases hlm : g.legal_move bead.action with
        | none => rw [hlm] at h; exact absurd h (by simp)
        | some ok =>
          rw [hlm] at h
          cases ok with
          | false => exact absurd h (by simp)
          | true =>
            simp only [Except.ok.injEq, Prod.mk.injEq] at h
            obtain ⟨ha, hm⟩ := h
            refine ⟨moves, sampleWeighted (moves.map Bead.count) (r % total), bead,
              ?_, hbi, ha, ?_, ?_, ?_⟩
            · rw [← hm]
              exact hlook
            · rw [← ha]
              exact List.mem_map.mpr ⟨bead, List.getElem?_mem hbi, rfl⟩
            · exact (List.getElem?_eq_some.mp hbi).1
            · rw [← hm]
              simp [ensureState_record]

/-- C5 witness: a successful concrete `choose` run, its conclusion
extracted through the theorem. -/
theorem choose_ok_legal_witness :
    (Menace.new).choose ⟨fun _ _ => Symbol.EMPTY⟩ 5 =
      .ok ((0, 2),
        ⟨[("---------",
           [⟨(0, 0), 2⟩, ⟨(0, 1), 2⟩, ⟨(0, 2), 2⟩, ⟨(1, 0), 2⟩, ⟨(1, 1), 2⟩,
            ⟨(1, 2), 2⟩, ⟨(2, 0), 2⟩, ⟨(2, 1), 2⟩, ⟨(2, 2), 2⟩])],
         [("---------", 2)]⟩) ∧
    ∃ e i b, lookupAL
        ([("---------",
           [⟨(0, 0), 2⟩, ⟨(0, 1), 2⟩, ⟨(0, 2), 2⟩, ⟨(1, 0), 2⟩, ⟨(1, 1), 2⟩,
            ⟨(1, 2), 2⟩, ⟨(2, 0), 2⟩, ⟨(2, 1), 2⟩, ⟨(2, 2), 2⟩])] : Matchbox)
        (TicTacToe.flatten ⟨fun _ _ => Symbol.EMPTY⟩) = some e ∧ e[i]? = some b ∧
      b.action = (0, 2) ∧ (0, 2) ∈ e.map Bead.action ∧ i < e.length ∧
      ([("---------", 2)] : List (String × Nat)) =
        (Menace.new).record ++ [(TicTacToe.flatten ⟨fun _ _ => Symbol.EMPTY⟩, i)] :=
  ⟨by decide,
   choose_ok_legal Menace.new ⟨fun _ _ => Symbol.EMPTY⟩ 5 (0, 2)
     ⟨[("---------",
        [⟨(0, 0), 2⟩, ⟨(0, 1), 2⟩, ⟨(0, 2), 2⟩, ⟨(1, 0), 2⟩, ⟨(1, 1), 2⟩,
         ⟨(1, 2), 2⟩, ⟨(2, 0), 2⟩, ⟨(2, 1), 2⟩, ⟨(2, 2), 2⟩])],
      [("---------", 2)]⟩ (by decide)⟩

/-- C5 counterexample: a state whose entry has one action weight of count
zero — "at least one action weight (of any count)" — on which `choose`
fails instead of returning a descriptor. -/
theorem choose_returns_counterexample :
    (⟨[("---------", [⟨(1, 0), 0⟩])], []⟩ : Menace).choose
        ⟨fun _ _ => Symbol.EMPTY⟩ 0 = .error (.weightedIndex .allWeightsZero) := by
  decide

/-! Round-trip persistence. -/

/-- The value ranges every bead held by a running Rust process satisfies
(`usize` actions, `u32` count). -/
def BeadWF (b : Bead) : Prop :=
  b.action.1 < USIZE_MOD ∧ b.action.2 < USIZE_MOD ∧ b.count < U32_MOD

/-- Every bead of the table is within the machine-integer ranges. -/
def MatchboxWF (mb : Matchbox) : Prop :=
  ∀ kv ∈ mb, ∀ b ∈ kv.2, BeadWF b

instance (b : Bead) : Decidable (BeadWF b) := by
  unfold BeadWF
  infer_instance

instance (mb : Matchbox) : Decidable (MatchboxWF mb) := by
  unfold MatchboxWF
  infer_instance

theorem deserializeUsize_num (n : Nat) (h : n < USIZE_MOD) :
    deserializeUsize (.num n) = .ok n := by
  show (if 0 ≤ (n : Int) ∧ ((n : Int)).toNat < USIZE_MOD then Except.ok ((n : Int)).toNat
    else Except.error "invalid value: out of range for usize") = Except.ok n
  rw [if_pos ⟨Int.ofNat_nonneg n, by simpa using h⟩, Int.toNat_natCast]

theorem deserializeU32_num (n : Nat) (h : n < U32_MOD) :
    deserializeU32 (.num n) = .ok n := by
  show (if 0 ≤ (n : Int) ∧ ((n : Int)).toNat < U32_MOD then Except.ok ((n : Int)).toNat
    else Except.error "invalid value: out of range for u32") = Except.ok n
  rw [if_pos ⟨Int.ofNat_nonneg n, by simpa using h⟩, Int.toNat_natCast]

theorem deserializeAction_pair (a : Nat × Nat) (h1 : a.1 < USIZE_MOD) (h2 : a.2 < USIZE_MOD) :
    deserializeAction (.arr [.num a.1, .num a.2]) = .ok a := by
  show deserializeActionPair (.num a.1) (.num a.2) = .ok a
  unfold deserializeActionPair
  rw [deserializeUsize_num a.1 h1]
  dsimp only
  rw [deserializeUsize_num a.2 h2]

theorem deserializeBead_serializeBead (b : Bead) (h : BeadWF b) :
    deserializeBead (serializeBead b) = .ok b := by
  obtain ⟨h1, h2, h3⟩ := h
  show deserializeBeadObj
    [("action", .arr [.num b.action.1, .num b.action.2]), ("count", .num b.count)] = .ok b
  unfold deserializeBeadObj
  simp only [List.foldl_cons, List.foldl_nil, beadFieldStep,
    deserializeAction_pair b.action h1 h2, deserializeU32_num b.count h3,
    eq_self_iff_true, if_true, if_false,
    eq_false (show ¬("action" : String) = "count" by decide),
    eq_false (show ¬("count" : String) = "action" by decide)]

theorem deserializeBeadList_serialize (bs : List Bead) (h : ∀ b ∈ bs, BeadWF b) :
    deserializeBeadList (bs.map serializeBead) = .ok bs := by
  induction bs with
  | nil => rfl
  | cons b rest ih =>
    simp only [List.map_cons]
    unfold deserializeBeadList
    rw [deserializeBead_serializeBead b (h b (List.mem_cons_self _ _))]
    dsimp only
    rw [ih (fun x hx => h x (List.mem_cons_of_mem _ hx))]

theorem lookupAL_append (l1 l2 : Matchbox) (k : String) :
    lookupAL (l1 ++ l2) k =
      match lookupAL l1 k with
      | some v => some v
      | none => lookupAL l2 k := by
  induction l1 with
  | nil => rfl
  | cons kv rest ih =>
    obtain ⟨k2, v2⟩ := kv
    by_cases hk : k2 = k <;> simp [lookupAL, hk, ih]

theorem insertAL_of_lookup_none (mb : Matchbox) (k : String) (v : List Bead)
    (h : lookupAL mb k = none) : insertAL mb k v = mb ++ [(k, v)] := by
  induction mb with
  | nil => rfl
  | cons kv rest ih =>
    obtain ⟨k2, v2⟩ := kv
    unfold lookupAL at h
    by_cases hk : k2 = k
    · rw [if_pos hk] at h
      exact absurd h (by simp)
    · rw [if_neg hk] at h
      unfold insertAL
      rw [if_neg hk, ih h]
      rfl

theorem readMatchboxFields_roundtrip :
    ∀ (mb acc : Matchbox),
      MatchboxWF mb →
      (mb.map Prod.fst).Nodup →
      (∀ k ∈ mb.map Prod.fst, lookupAL acc k = none) →
      readMatchboxFields (mb.map fun e => (e.1, Json.arr (e.2.map serializeBead))) acc =
        .ok (acc ++ mb) := by
  intro mb
  induction mb with
  | nil =>
    intro acc _ _ _
    simp [readMatchboxFields]
  | cons kv rest ih =>
    intro acc hwf hnd hdisj
    obtain ⟨k, bs⟩ := kv
    simp only [List.map_cons]
    unfold readMatchboxFields
    have hbs : deserializeBeads (Json.arr (bs.map serializeBead)) = .ok bs := by
      show deserializeBeadList (bs.map serializeBead) = .ok bs
      exact deserializeBeadList_serialize bs (hwf (k, bs) (List.mem_cons_self _ _))
    rw [hbs]
    dsimp only
    rw [insertAL_of_lookup_none acc k bs (hdisj k (by simp))]
    have hnd2 : (rest.map Prod.fst).Nodup := (List.nodup_cons.mp hnd).2
    have hknotin : k ∉ rest.map Prod.fst := (List.nodup_cons.mp hnd).1
    rw [ih (acc ++ [(k, bs)])
      (fun kv2 h2 => hwf kv2 (List.mem_cons_of_mem _ h2)) hnd2
      (fun k2 hk2 => ?_)]
    · rw [List.append_assoc]
      rfl
    · rw [lookupAL_append, hdisj k2 (by simp [hk2])]
      dsimp only
      unfold lookupAL
      rw [if_neg (show ¬k = k2 from fun he => hknotin (by rw [he]; exact hk2))]
      rfl

/-- C7: saving the table and loading the saved document reproduces the
weight table exactly — the same state keys mapping to the same ordered
beads with the same counts — the episode record is not persisted (`save`
does not depend on it), and the record is empty after `load`. -/
theorem save_load_roundtrip (m : Menace) (filename : String)
    (hnd : (m.matchbox.map Prod.fst).Nodup) (hwf : MatchboxWF m.matchbox) :
    Menace.load filename (.doc m.save) = .ok ⟨m.matchbox, []⟩ ∧
    ∀ r2 : List (String × Nat), Menace.save ⟨m.matchbox, r2⟩ = m.save := by
  constructor
  · have hmb : deserializeMatchbox (Menace.save m) = .ok m.matchbox := by
      show readMatchboxFields
        (m.matchbox.map fun e => (e.1, Json.arr (e.2.map serializeBead))) [] = .ok m.matchbox
      rw [readMatchboxFields_roundtrip m.matchbox [] hwf hnd (fun k _ => rfl)]
      rfl
    show (match deserializeMatchbox (Menace.save m) with
      | .ok mb => (Except.ok (⟨mb, []⟩ : Menace) : Except String Menace)
      | .error _ => .error ("Failed to load JSON file: " ++ filename)) = .ok ⟨m.matchbox, []⟩
    rw [hmb]
  · intro r2
    rfl

/-- C7 witness: the round trip evaluated on a concrete two-state table
carrying a pending episode record. -/
theorem save_load_roundtrip_witness :
    ((⟨[("ab", [⟨(0, 1), 5⟩]), ("cd", [⟨(2, 2), 0⟩, ⟨(1, 0), 3⟩])], [("ab", 0)]⟩ : Menace).matchbox.map
        Prod.fst).Nodup ∧
    MatchboxWF (⟨[("ab", [⟨(0, 1), 5⟩]), ("cd", [⟨(2, 2), 0⟩, ⟨(1, 0), 3⟩])], [("ab", 0)]⟩ : Menace).matchbox ∧
    Menace.load "menace.json"
        (.doc (⟨[("ab", [⟨(0, 1), 5⟩]), ("cd", [⟨(2, 2), 0⟩, ⟨(1, 0), 3⟩])], [("ab", 0)]⟩ : Menace).save) =
      .ok ⟨[("ab", [⟨(0, 1), 5⟩]), ("cd", [⟨(2, 2), 0⟩, ⟨(1, 0), 3⟩])], []⟩ :=
  ⟨by decide, by decide,
   (save_load_roundtrip ⟨[("ab", [⟨(0, 1), 5⟩]), ("cd", [⟨(2, 2), 0⟩, ⟨(1, 0), 3⟩])], [("ab", 0)]⟩
     "menace.json" (by decide) (by decide)).1⟩

/-- C8: a missing/unreadable file, unparseable text, or a malformed
document (wrong type, missing field, negative count) makes `load` return a
distinguishable error value — no silent repair — and `main`'s fallback on
any load error is the fresh empty engine `Menace::new()`, never an
abort. -/
theorem load_error_fallback (filename : String) :
    Menace.load filename .missing = .error ("Unable to read file: " ++ filename) ∧
    Menace.load filename .invalidText = .error ("Failed to load JSON file: " ++ filename) ∧
    Menace.load filename
        (.doc (.obj [("k", .arr [.obj [("action", .arr [.num 0, .num 0]), ("count", .num (-1))]])])) =
      .error ("Failed to load JSON file: " ++ filename) ∧
    Menace.load filename
        (.doc (.obj [("k", .arr [.obj [("action", .arr [.num 0, .num 0])]])])) =
      .error ("Failed to load JSON file: " ++ filename) ∧
    Menace.load filename (.doc (.num 3)) = .error ("Failed to load JSON file: " ++ filename) ∧
    (∀ (file : LoadFile) (e : String),
      Menace.load filename file = .error e → initialMenace filename file = Menace.new) ∧
    Menace.new = ⟨[], []⟩ := by
  refine ⟨rfl, rfl, rfl, rfl, rfl, fun file e h => ?_, rfl⟩
  unfold initialMenace
  rw [h]

/-- C8 witness: the missing-file case falls back to a fresh engine. -/
theorem load_error_fallback_witness :
    Menace.load "menace.json" .missing = .error "Unable to read file: menace.json" ∧
    initialMenace "menace.json" .missing = Menace.new :=
  ⟨by decide,
   (load_error_fallback "menace.json").2.2.2.2.2.1 .missing
     "Unable to read file: menace.json" (by decide)⟩

end MenaceRs
